import Mathlib

/-!
Shallow embedding of the data-integrity reconciliation layer of the
injective-dex frontend: the derivative subaccount-position integrity
strategy (`verifyData`, `validate`), the stream manager's idempotent
cancellation, the subaccount-balance transformers, and the app store's
favorite-market toggle. Each definition is translated from the
corresponding TypeScript source; external effects (remote fetches,
stream subscriptions) are modelled as explicit parameters and an
emitted event trace.
-/

namespace InjectiveDex

/-- A derivative position, restricted to the two fields the integrity
strategy compares: the market identifier and the last-update timestamp. -/
structure Position where
  marketId : String
  updatedAt : Nat
  deriving DecidableEq, Repr

/-- `DerivativeSubaccountPositionIntegrityStrategy.verifyData`: every
existing (cached) position must have some latest (fresh) position with
the same `marketId` and the same `updatedAt`. -/
def verifyData (existingPositions latestPositions : List Position) : Bool :=
  existingPositions.all fun existingPosition =>
    latestPositions.any fun latestPosition =>
      existingPosition.marketId == latestPosition.marketId &&
        existingPosition.updatedAt == latestPosition.updatedAt

/-- The external observable actions `validate` performs, in order:
a remote positions fetch, a cancellation of the subaccount-positions
stream, or the opening of a subaccount-positions stream scoped to an
optional market id. -/
inductive Event where
  | fetchPositions : Event
  | cancelStream : Event
  | openStream : Option String → Event
  deriving DecidableEq, Repr

/-- Events that touch the stream registry (cancel or open); a run with
none of these in its trace cancels no stream and opens no stream. -/
def isStreamOp : Event → Bool
  | Event.fetchPositions => false
  | Event.cancelStream => true
  | Event.openStream _ => true

/-- `DerivativeSubaccountPositionIntegrityStrategy.validate`, as a function
of the store state it reads and of the results the two `fetchData` calls
return during the run. Returns the final `subaccountPositions` snapshot of
the position store together with the trace of external actions:

* if the wallet is not connected or the subaccount id is unset (empty
  string, the falsy string), return at once;
* otherwise fetch; if the result is empty, return;
* otherwise compare with `verifyData`; on success return, on divergence
  cancel the stream, fetch again, patch the cache with that second result,
  and open a stream scoped to the head of `marketIds || []`. -/
def validate (marketIds : Option (List String)) (isUserConnected : Bool)
    (subaccountId : String) (subaccountPositions : List Position)
    (fetch1 fetch2 : List Position) : List Position × List Event :=
  if !isUserConnected || subaccountId == "" then
    (subaccountPositions, [])
  else if fetch1.isEmpty then
    (subaccountPositions, [Event.fetchPositions])
  else if verifyData subaccountPositions fetch1 then
    (subaccountPositions, [Event.fetchPositions])
  else
    (fetch2,
      [Event.fetchPositions, Event.cancelStream, Event.fetchPositions,
        Event.openStream (marketIds.getD []).head?])

/-- The stream manager's state: the registry of live subscription handles
keyed by stream kind (at most one per kind, first match wins on lookup),
plus the handles cancelled so far, newest first. Handles are opaque; we
represent them by numbers. -/
structure StreamManagerState where
  registry : List (String × Nat)
  cancelled : List Nat
  deriving DecidableEq, Repr

/-- Modelled from the spec: the `StreamManager` singleton's
`cancelIfExists(kind)` (its class is not among the repository files; only
its caller `cancelMarketStreams` is). Per the spec it "cancels and
deregisters the handle for `kind` if present; no-op (not an error) if
absent". -/
def cancelIfExists (kind : String) (st : StreamManagerState) :
    StreamManagerState :=
  match st.registry.lookup kind with
  | some h =>
      { registry := st.registry.filter fun p => p.1 != kind,
        cancelled := h :: st.cancelled }
  | none => st

/-- A deposit record of a subaccount balance: total and available amounts,
kept as decimal strings as the indexer returns them. -/
structure SubaccountDeposit where
  totalBalance : String
  availableBalance : String
  deriving DecidableEq, Repr

/-- A subaccount balance as returned by the indexer: a denom and an
optional deposit. -/
structure SubaccountBalance where
  denom : String
  deposit : Option SubaccountDeposit
  deriving DecidableEq, Repr

/-- The UI-facing subaccount balance shape. -/
structure UiSubaccountBalance where
  denom : String
  totalBalance : String
  availableBalance : String
  deriving DecidableEq, Repr

/-- `grpcSubaccountBalanceToUiSubaccountBalance` (transformer file):
copies `denom`, and maps the deposit's `totalBalance` and
`availableBalance` through directly, defaulting each to "0" when the
deposit is absent. -/
def grpcSubaccountBalanceToUiSubaccountBalance
    (balance : SubaccountBalance) : UiSubaccountBalance :=
  { denom := balance.denom
    totalBalance :=
      match balance.deposit with
      | some deposit => deposit.totalBalance
      | none => "0"
    availableBalance :=
      match balance.deposit with
      | some deposit => deposit.availableBalance
      | none => "0" }

/-- The per-record balance mapping inside `fetchSubaccount`
(src/app/services/account.ts): note that it assigns the deposit's
`availableBalance` to the output's `totalBalance` field and the deposit's
`totalBalance` to the output's `availableBalance` field, each defaulting
to "0" when the deposit is absent. (The `token` field of the source
record, produced by an external transformer, is outside the compared
fields and omitted.) -/
def fetchSubaccountBalanceToUi (balance : SubaccountBalance) :
    UiSubaccountBalance :=
  { denom := balance.denom
    totalBalance :=
      match balance.deposit with
      | some deposit => deposit.availableBalance
      | none => "0"
    availableBalance :=
      match balance.deposit with
      | some deposit => deposit.totalBalance
      | none => "0" }

/-- The geolocation block of the app store's user state. -/
structure GeoLocation where
  continent : String
  country : String
  browserCountry : String
  vpnCheckTimestamp : Nat
  deriving DecidableEq, Repr

/-- The preference block of the app store's user state. The two layout
enums are kept as strings. -/
structure UserPreferences where
  isHideBalances : Bool
  authZManagement : Bool
  thousandsSeparator : Bool
  tradingLayout : String
  subaccountManagement : Bool
  orderbookLayout : String
  skipTradeConfirmationModal : Bool
  skipExperimentalConfirmationModal : Bool
  showGridTradingSubaccounts : Bool
  deriving DecidableEq, Repr

/-- `UserBasedState` of the app store: favorite markets, viewed banners
and modals (kept as strings), geolocation and preferences. -/
structure UserBasedState where
  favoriteMarkets : List String
  bannersViewed : List String
  modalsViewed : List String
  geoLocation : GeoLocation
  preferences : UserPreferences
  deriving DecidableEq, Repr

/-- `AppStoreState`: block height, app settings (locale, chain ids, gas
price, markets-open flag, dev mode) and the user state. External enum
types are kept as strings/numbers. -/
structure AppStoreState where
  blockHeight : Nat
  locale : String
  chainId : String
  gasPrice : String
  ethereumChainId : Nat
  marketsOpen : Bool
  devMode : Option Bool
  userState : UserBasedState
  deriving DecidableEq, Repr

/-- `useAppStore.toggleFavoriteMarket`: if the market id is among the
cached favorites, keep only the favorites different from it; otherwise
prepend it. The result is patched into the user state, every other field
spread through unchanged. -/
def toggleFavoriteMarket (marketId : String) (st : AppStoreState) :
    AppStoreState :=
  let cachedFavoriteMarkets := st.userState.favoriteMarkets
  let favoriteMarkets :=
    if cachedFavoriteMarkets.contains marketId then
      cachedFavoriteMarkets.filter fun m => m != marketId
    else
      marketId :: cachedFavoriteMarkets
  { st with userState := { st.userState with favoriteMarkets := favoriteMarkets } }

end InjectiveDex

namespace InjectiveDex

/-- Looking up a key in a list from which every pair with that key was
filtered out finds nothing. -/
theorem lookup_filter_self_none (kind : String) (l : List (String × Nat)) :
    (l.filter fun p => p.1 != kind).lookup kind = none := by
  induction l with
  | nil => rfl
  | cons a l ih =>
    by_cases h : a.1 = kind
    · simpa [List.filter_cons, bne_iff_ne, h] using ih
    · have hb : (a.1 != kind) = true := bne_iff_ne.mpr h
      have hk : (kind == a.1) = false :=
        beq_eq_false_iff_ne.mpr fun hkk => h hkk.symm
      simpa [List.filter_cons, hb, List.lookup, hk] using ih

/-- `cancelIfExists` on a kind with no registered handle changes nothing. -/
theorem cancelIfExists_of_not_registered (kind : String)
    (st : StreamManagerState) (h : st.registry.lookup kind = none) :
    cancelIfExists kind st = st := by
  simp [cancelIfExists, h]

/-- After `cancelIfExists kind`, no handle is registered under `kind`. -/
theorem cancelIfExists_deregisters (kind : String)
    (st : StreamManagerState) :
    (cancelIfExists kind st).registry.lookup kind = none := by
  cases hl : st.registry.lookup kind with
  | none => simp [cancelIfExists, hl]
  | some h => simp [cancelIfExists, hl, lookup_filter_self_none]

/-- On divergence, `validate` runs exactly the trace
fetch, cancel, fetch, open(head of marketIds), and the cache ends as the
second fetch's result. -/
theorem validate_divergence_resync (m : Option (List String)) (u : Bool)
    (s : String) (cached f1 f2 : List Position) (hu : u = true)
    (hs : s ≠ "") (hf : f1 ≠ []) (hv : verifyData cached f1 = false) :
    validate m u s cached f1 f2 =
      (f2, [Event.fetchPositions, Event.cancelStream, Event.fetchPositions,
        Event.openStream (m.getD []).head?]) := by
  subst hu
  have hsb : (s == "") = false := beq_eq_false_iff_ne.mpr hs
  have hempty : f1.isEmpty = false := by
    cases f1 with
    | nil => exact absurd rfl hf
    | cons a l => rfl
  simp [validate, hsb, hempty, hv]

/-- Witness for the divergence theorem at a concrete run. -/
theorem validate_divergence_resync_witness :
    validate (some ["A"]) true "sub" [Position.mk "A" 100]
        [Position.mk "A" 200] [Position.mk "A" 200] =
      ([Position.mk "A" 200],
        [Event.fetchPositions, Event.cancelStream, Event.fetchPositions,
          Event.openStream (some "A")]) :=
  validate_divergence_resync (some ["A"]) true "sub" [Position.mk "A" 100]
    [Position.mk "A" 200] [Position.mk "A" 200] rfl (by decide) (by decide)
    (by decide)

/-- C2 as stated is false: on a run where the two `fetchData` calls return
different results, the cache is replaced with the second result, not with
the fresh snapshot that `verifyData` rejected. Here the preconditions of
the claim hold (connected, subaccount set, fresh non-empty, verification
false) yet the final cache differs from the fresh snapshot. -/
theorem validate_patches_second_fetch :
    verifyData [Position.mk "A" 100] [Position.mk "A" 200] = false ∧
    [Position.mk "A" 200] ≠ ([] : List Position) ∧
    (validate (some ["A"]) true "sub" [Position.mk "A" 100]
        [Position.mk "A" 200] [Position.mk "B" 300]).1 ≠
      [Position.mk "A" 200] := by
  decide

/-- C3: whenever `verifyData` accepts the cached snapshot against the first
fetch, `validate` leaves the cache unchanged and its trace holds no stream
operation (no cancel, no open). -/
theorem validate_verified_no_mutation (m : Option (List String)) (u : Bool)
    (s : String) (cached f1 f2 : List Position)
    (hv : verifyData cached f1 = true) :
    (validate m u s cached f1 f2).1 = cached ∧
    (validate m u s cached f1 f2).2.filter isStreamOp = [] := by
  by_cases h1 : (!u || s == "") = true
  · simp [validate, h1, isStreamOp]
  · by_cases h2 : f1.isEmpty = true
    · simp [validate, h1, h2, isStreamOp]
    · simp [validate, h1, h2, hv, isStreamOp]

/-- Witness for the successful-verification theorem at a concrete run. -/
theorem validate_verified_no_mutation_witness :
    (validate (some ["A"]) true "sub" [Position.mk "A" 100]
        [Position.mk "A" 100] []).1 = [Position.mk "A" 100] ∧
    (validate (some ["A"]) true "sub" [Position.mk "A" 100]
        [Position.mk "A" 100] []).2.filter isStreamOp = [] :=
  validate_verified_no_mutation (some ["A"]) true "sub"
    [Position.mk "A" 100] [Position.mk "A" 100] [] (by decide)

/-- C4: when the first fetch returns an empty snapshot, `validate` leaves
the cache unchanged and performs no stream operation, whatever the cached
content. -/
theorem validate_empty_fetch_no_mutation (m : Option (List String))
    (u : Bool) (s : String) (cached f2 : List Position)
    (f1 : List Position) (hf : f1 = []) :
    (validate m u s cached f1 f2).1 = cached ∧
    (validate m u s cached f1 f2).2.filter isStreamOp = [] := by
  subst hf
  by_cases h1 : (!u || s == "") = true
  · simp [validate, h1, isStreamOp]
  · simp [validate, h1, isStreamOp]

/-- Witness for the empty-fetch theorem at a concrete run. -/
theorem validate_empty_fetch_no_mutation_witness :
    (validate none true "sub" [Position.mk "A" 100] [] [Position.mk "B" 1]).1 =
      [Position.mk "A" 100] ∧
    (validate none true "sub" [Position.mk "A" 100] []
        [Position.mk "B" 1]).2.filter isStreamOp = [] :=
  validate_empty_fetch_no_mutation none true "sub" [Position.mk "A" 100]
    [Position.mk "B" 1] [] rfl

/-- C5: with the wallet disconnected or the subaccount id unset, `validate`
returns at once: the cache is unchanged and the trace is empty, so no fetch,
no cancel and no open happened. -/
theorem validate_disconnected_skips (m : Option (List String)) (u : Bool)
    (s : String) (cached f1 f2 : List Position)
    (h : u = false ∨ s = "") :
    validate m u s cached f1 f2 = (cached, []) := by
  rcases h with h | h
  · subst h
    simp [validate]
  · subst h
    simp [validate]

/-- Witness for the disconnected-skip theorem at a concrete run. -/
theorem validate_disconnected_skips_witness :
    validate (some ["A"]) false "sub" [Position.mk "A" 100]
        [Position.mk "A" 200] [Position.mk "A" 200] =
      ([Position.mk "A" 100], []) :=
  validate_disconnected_skips (some ["A"]) false "sub" [Position.mk "A" 100]
    [Position.mk "A" 200] [Position.mk "A" 200] (Or.inl rfl)

/-- C6 as stated is false: `validate` has no empty-cache guard, so with an
empty cache (wallet connected, subaccount set, fresh snapshot non-empty) it
still performs a remote fetch. -/
theorem validate_empty_cache_still_fetches :
    Event.fetchPositions ∈
      (validate (some ["A"]) true "sub" [] [Position.mk "A" 100]
        [Position.mk "A" 100]).2 := by
  decide

/-- C6 amended: with an empty cache and the guard passed, `validate`
performs exactly one remote fetch and nothing else — the cache stays empty
and no stream is cancelled or opened (an empty cache always verifies). -/
theorem validate_empty_cache_fetch_only (m : Option (List String)) (u : Bool)
    (s : String) (f1 f2 : List Position) (hu : u = true) (hs : s ≠ "") :
    validate m u s [] f1 f2 = ([], [Event.fetchPositions]) := by
  subst hu
  have hsb : (s == "") = false := beq_eq_false_iff_ne.mpr hs
  by_cases h2 : f1.isEmpty = true
  · simp [validate, hsb, h2]
  · simp [validate, hsb, h2, verifyData]

/-- Witness for the empty-cache theorem at a concrete run. -/
theorem validate_empty_cache_fetch_only_witness :
    validate (some ["A"]) true "sub" [] [Position.mk "A" 100]
        [Position.mk "B" 300] =
      ([], [Event.fetchPositions]) :=
  validate_empty_cache_fetch_only (some ["A"]) true "sub"
    [Position.mk "A" 100] [Position.mk "B" 300] rfl (by decide)

/-- C1: `verifyData C F` is true iff every cached element has a matching
fresh element with identical `(marketId, updatedAt)` pair; in particular
`verifyData [] F` is true for every `F`, and it is false as soon as one
cached element has no such match. -/
theorem verifyData_iff_matches (C F : List Position) :
    (verifyData C F = true ↔
      ∀ e ∈ C, ∃ f ∈ F, e.marketId = f.marketId ∧ e.updatedAt = f.updatedAt) ∧
    verifyData [] F = true := by
  constructor
  · simp only [verifyData, List.all_eq_true, List.any_eq_true,
      Bool.and_eq_true, beq_iff_eq]
  · rfl

end InjectiveDex

namespace InjectiveDex

/-- C7: cancelling a kind's stream is idempotent: when a handle is
registered under the kind, `cancelIfExists` cancels it and deregisters it;
when none is (in particular right after a first call), the call changes
nothing — and, the model being total, it never throws. -/
theorem cancelIfExists_cancels_once (kind : String)
    (st : StreamManagerState) :
    (∀ h, st.registry.lookup kind = some h →
      (cancelIfExists kind st).registry.lookup kind = none ∧
      (cancelIfExists kind st).cancelled = h :: st.cancelled) ∧
    (st.registry.lookup kind = none → cancelIfExists kind st = st) ∧
    cancelIfExists kind (cancelIfExists kind st) = cancelIfExists kind st := by
  refine ⟨?_, cancelIfExists_of_not_registered kind st, ?_⟩
  · intro h hh
    exact ⟨cancelIfExists_deregisters kind st, by simp [cancelIfExists, hh]⟩
  · exact cancelIfExists_of_not_registered kind _
      (cancelIfExists_deregisters kind st)

/-- C8 fails on the code: on a deposit whose total and available amounts
differ, the mapping inside `fetchSubaccount` swaps the two fields while
the transformer maps them through directly, so the two outputs differ. -/
theorem fetchSubaccount_swaps_deposit_fields :
    (grpcSubaccountBalanceToUiSubaccountBalance
      (SubaccountBalance.mk "inj"
        (some (SubaccountDeposit.mk "2" "1")))).totalBalance = "2" ∧
    (fetchSubaccountBalanceToUi
      (SubaccountBalance.mk "inj"
        (some (SubaccountDeposit.mk "2" "1")))).totalBalance = "1" ∧
    (grpcSubaccountBalanceToUiSubaccountBalance
      (SubaccountBalance.mk "inj"
        (some (SubaccountDeposit.mk "2" "1")))).availableBalance = "1" ∧
    (fetchSubaccountBalanceToUi
      (SubaccountBalance.mk "inj"
        (some (SubaccountDeposit.mk "2" "1")))).availableBalance = "2" :=
  ⟨rfl, rfl, rfl, rfl⟩

/-- C9: a balance record without a deposit maps, under both the
transformer and the `fetchSubaccount` mapping, to the string "0" for both
the total and the available balance. -/
theorem balance_without_deposit_maps_to_zero (balance : SubaccountBalance)
    (h : balance.deposit = none) :
    grpcSubaccountBalanceToUiSubaccountBalance balance =
      UiSubaccountBalance.mk balance.denom "0" "0" ∧
    fetchSubaccountBalanceToUi balance =
      UiSubaccountBalance.mk balance.denom "0" "0" := by
  constructor <;>
    simp [grpcSubaccountBalanceToUiSubaccountBalance,
      fetchSubaccountBalanceToUi, h]

/-- Witness for the missing-deposit theorem at a concrete record. -/
theorem balance_without_deposit_maps_to_zero_witness :
    grpcSubaccountBalanceToUiSubaccountBalance
        (SubaccountBalance.mk "inj" none) =
      UiSubaccountBalance.mk "inj" "0" "0" ∧
    fetchSubaccountBalanceToUi (SubaccountBalance.mk "inj" none) =
      UiSubaccountBalance.mk "inj" "0" "0" :=
  balance_without_deposit_maps_to_zero (SubaccountBalance.mk "inj" none) rfl

/-- The favorite-markets list after a toggle, as an if-expression. -/
theorem toggleFavoriteMarket_favs (marketId : String) (st : AppStoreState) :
    (toggleFavoriteMarket marketId st).userState.favoriteMarkets =
      if st.userState.favoriteMarkets.contains marketId then
        st.userState.favoriteMarkets.filter fun m => m != marketId
      else
        marketId :: st.userState.favoriteMarkets := rfl

/-- A list does not contain an element that is not a member of it. -/
theorem contains_eq_false_of_not_mem {a : String} {l : List String}
    (h : a ∉ l) : l.contains a = false := by
  cases hc : l.contains a
  · rfl
  · exact absurd (List.elem_iff.mp hc) h

/-- Filtering out an element and putting one copy back in front leaves
membership unchanged, provided the element was a member. -/
theorem mem_cons_filter_ne (marketId : String) (l : List String)
    (h : marketId ∈ l) (x : String) :
    x ∈ marketId :: (l.filter fun m => m != marketId) ↔ x ∈ l := by
  simp only [List.mem_cons, List.mem_filter, bne_iff_ne]
  constructor
  · rintro (rfl | ⟨hx, _⟩)
    · exact h
    · exact hx
  · intro hx
    by_cases e : x = marketId
    · exact Or.inl e
    · exact Or.inr ⟨hx, e⟩

/-- Filtering a cons of a fresh element by "different from it" gives the
original list back. -/
theorem filter_ne_cons_self (marketId : String) (l : List String)
    (h : marketId ∉ l) :
    (marketId :: l).filter (fun m => m != marketId) = l := by
  rw [List.filter_cons]
  simp only [bne_self_eq_false, Bool.false_eq_true, if_false]
  exact List.filter_eq_self.mpr fun a ha =>
    bne_iff_ne.mpr fun e => h (e ▸ ha)

end InjectiveDex

namespace InjectiveDex

/-- C10: `toggleFavoriteMarket` leaves every app-store field other than the
favorite-markets list unchanged; it removes the market id from the
favorites when present and prepends it when absent; and toggling the same
market id twice leaves the favorites with exactly the same members. -/
theorem toggleFavoriteMarket_toggles (st : AppStoreState) (marketId : String) :
    ((toggleFavoriteMarket marketId st).blockHeight = st.blockHeight ∧
      (toggleFavoriteMarket marketId st).locale = st.locale ∧
      (toggleFavoriteMarket marketId st).chainId = st.chainId ∧
      (toggleFavoriteMarket marketId st).gasPrice = st.gasPrice ∧
      (toggleFavoriteMarket marketId st).ethereumChainId =
        st.ethereumChainId ∧
      (toggleFavoriteMarket marketId st).marketsOpen = st.marketsOpen ∧
      (toggleFavoriteMarket marketId st).devMode = st.devMode ∧
      (toggleFavoriteMarket marketId st).userState.bannersViewed =
        st.userState.bannersViewed ∧
      (toggleFavoriteMarket marketId st).userState.modalsViewed =
        st.userState.modalsViewed ∧
      (toggleFavoriteMarket marketId st).userState.geoLocation =
        st.userState.geoLocation ∧
      (toggleFavoriteMarket marketId st).userState.preferences =
        st.userState.preferences) ∧
    (marketId ∈ st.userState.favoriteMarkets →
      (toggleFavoriteMarket marketId st).userState.favoriteMarkets =
        st.userState.favoriteMarkets.filter fun m => m != marketId) ∧
    (marketId ∉ st.userState.favoriteMarkets →
      (toggleFavoriteMarket marketId st).userState.favoriteMarkets =
        marketId :: st.userState.favoriteMarkets) ∧
    ∀ x, (x ∈ (toggleFavoriteMarket marketId
          (toggleFavoriteMarket marketId st)).userState.favoriteMarkets ↔
        x ∈ st.userState.favoriteMarkets) := by
  refine ⟨⟨rfl, rfl, rfl, rfl, rfl, rfl, rfl, rfl, rfl, rfl, rfl⟩, ?_, ?_, ?_⟩
  · intro h
    have hc : st.userState.favoriteMarkets.contains marketId = true :=
      List.elem_iff.mpr h
    rw [toggleFavoriteMarket_favs, hc]
    exact if_pos rfl
  · intro h
    have hc : st.userState.favoriteMarkets.contains marketId = false :=
      contains_eq_false_of_not_mem h
    rw [toggleFavoriteMarket_favs, hc]
    exact if_neg Bool.false_ne_true
  · intro x
    by_cases h : marketId ∈ st.userState.favoriteMarkets
    · have hc : st.userState.favoriteMarkets.contains marketId = true :=
        List.elem_iff.mpr h
      have hnotmem :
          marketId ∉ st.userState.favoriteMarkets.filter
            fun m => m != marketId := by
        intro hm
        exact absurd rfl (bne_iff_ne.mp (List.mem_filter.mp hm).2)
      have hc2 :
          (st.userState.favoriteMarkets.filter
            fun m => m != marketId).contains marketId = false :=
        contains_eq_false_of_not_mem hnotmem
      rw [toggleFavoriteMarket_favs, toggleFavoriteMarket_favs]
      rw [hc]
      simp only [if_true, hc2, Bool.false_eq_true, if_false]
      exact mem_cons_filter_ne marketId st.userState.favoriteMarkets h x
    · have hc : st.userState.favoriteMarkets.contains marketId = false :=
        contains_eq_false_of_not_mem h
      have hc2 :
          (marketId :: st.userState.favoriteMarkets).contains marketId =
            true :=
        List.elem_iff.mpr (List.mem_cons_self marketId _)
      rw [toggleFavoriteMarket_favs, toggleFavoriteMarket_favs]
      rw [hc]
      simp only [Bool.false_eq_true, if_false, hc2, if_true]
      rw [filter_ne_cons_self marketId st.userState.favoriteMarkets h]

end InjectiveDex
